import Mathlib

/-!
Verification of the cmake build-description model and shell session.

A shallow embedding of the project's core: the build-description loader
(`parse_cmake.ts`), the project model and its command construction
(`cmake.ts`), and the shell-session completion listener (`terminal.ts`,
shell-integration variant).

Modelling conventions:
* JavaScript `string | undefined` values are `Option String`; reading past
  the end of an argument array (`args[0]` on `[]`, `args[i++]` past the end)
  yields `none`.
* The per-configuration output-directory array (`new Array(2)` indexed by
  the configuration enum, possibly holding holes) is the two-field
  structure `OutDirs` of `Option String`.
* In-place mutation of target objects shared between `cmake.targets` and
  the matched-target list of `set_target_properties` is modelled by mapping
  the update over the model's target list guarded by the match predicate;
  property handlers never change a target's `name` or `type`, so the match
  predicate stays valid across the property pairs.
* `path.join` on already-normalized segments is `joinPath` (interpose the
  separator).
* The filesystem visible to the loader maps a `CMakeLists.txt` path to the
  statement sequence its text scans to (the line scanner itself is not at
  stake in the claims, so files are taken at statement granularity);
  a missing path is `none`.  Recursive descent into subdirectories is
  bounded by an explicit fuel parameter; the statement handlers receive the
  recursive entry point as the `recurse` argument.
* Effects of `generate`/`build`/`run` (directory removal, commands sent to
  the terminal, debug launches, thrown errors) are reified as values.
-/

namespace VSCMake

/-- Enum `CMakeTargetType` from cmake.ts. -/
inductive CMakeTargetType where
  | BUILD
  | RUN
deriving DecidableEq, Repr

/-- Enum `CMakeConfig` from cmake.ts. -/
inductive CMakeConfig where
  | DEBUG
  | RELEASE
deriving DecidableEq, Repr

/-- The `configs` name table from cmake.ts. -/
def configs : CMakeConfig → String
  | .DEBUG => "Debug"
  | .RELEASE => "Release"

/-- The `arch_win` table from cmake.ts (`undefined` for other keys). -/
def arch_win (a : String) : Option String :=
  if a = "x86" then some "Win32"
  else if a = "x64" then some "x64"
  else none

/-- The `target_win` table from cmake.ts (`undefined` for other keys). -/
def target_win (t : String) : Option String :=
  if t = "all" then some "all_build"
  else if t = "test" then some "run_tests"
  else none

/-- The length-2 array `outDir` indexed by `CMakeConfig`, entries possibly
absent (array holes / assigned `undefined`). -/
structure OutDirs where
  debug : Option String
  release : Option String
deriving DecidableEq, Repr

/-- Read `outDir[config]`. -/
def OutDirs.get (d : OutDirs) : CMakeConfig → Option String
  | .DEBUG => d.debug
  | .RELEASE => d.release

/-- Write `outDir[config] = val`. -/
def OutDirs.set (d : OutDirs) : CMakeConfig → Option String → OutDirs
  | .DEBUG, v => { d with debug := v }
  | .RELEASE, v => { d with release := v }

/-- Structure `CMakeTarget` from cmake.ts: name (possibly the undefined value, see the
conventions above), variant kind, per-configuration output directory,
optional output name. -/
structure CMakeTarget where
  name : Option String
  type : CMakeTargetType
  outDir : OutDirs
  outName : Option String
deriving DecidableEq, Repr

/-- The `CMakeBuildTarget` constructor: fresh `outDir` array (all holes),
no `outName`. -/
def CMakeBuildTarget (name : Option String) : CMakeTarget :=
  { name := name, type := .BUILD, outDir := ⟨none, none⟩, outName := none }

/-- The `CMakeRunTarget` constructor: `outDir.fill(outDir)` fills every
configuration with the given directory; `outName` as given. -/
def CMakeRunTarget (name : Option String) (outDir : String) (outName : Option String) :
    CMakeTarget :=
  { name := name, type := .RUN, outDir := ⟨some outDir, some outDir⟩, outName := outName }

/-- The identity key of a target: `(name, variant)` — the equality used by
`CMakeTarget.equals` and by reselection across reloads. -/
def targetKey (t : CMakeTarget) : Option String × CMakeTargetType := (t.name, t.type)

/-- Model of Node's `path.join` on already-normalized segments. -/
def joinPath : List String → String
  | [] => ""
  | [a] => a
  | a :: rest => a ++ "/" ++ joinPath rest

/-- The `CMake` project model from cmake.ts. -/
structure CMake where
  rootDir : String
  srcDir : String
  buildDir : String
  files : List String
  targets : List CMakeTarget
deriving DecidableEq, Repr

/-- The `CMake` constructor: fresh model for a root directory, with the two
implicit targets. -/
def CMake.new (rootDir : String) : CMake :=
  { rootDir := rootDir
    srcDir := rootDir
    buildDir := joinPath [rootDir, "build"]
    files := []
    targets := [CMakeBuildTarget (some "all"), CMakeBuildTarget (some "clean")] }

/-! The `props` table of parse_cmake.ts -/

/-- The `props` dispatch table from parse_cmake.ts: for a recognized
property key, the update it performs on one matched target (the source
filters the matched references by variant and assigns the field in place;
`val` is `none` when the source reads past the end of the argument list). -/
def props (key : String) : Option (Option String → CMakeTarget → CMakeTarget) :=
  if key = "RUNTIME_OUTPUT_DIRECTORY_DEBUG" then
    some fun val t => if t.type = .RUN then { t with outDir := t.outDir.set .DEBUG val } else t
  else if key = "LIBRARY_OUTPUT_DIRECTORY_DEBUG" then
    some fun val t => if t.type = .BUILD then { t with outDir := t.outDir.set .DEBUG val } else t
  else if key = "RUNTIME_OUTPUT_DIRECTORY_RELEASE" then
    some fun val t => if t.type = .RUN then { t with outDir := t.outDir.set .RELEASE val } else t
  else if key = "LIBRARY_OUTPUT_DIRECTORY_RELEASE" then
    some fun val t => if t.type = .BUILD then { t with outDir := t.outDir.set .RELEASE val } else t
  else if key = "OUTPUT_NAME" then
    some fun val t => { t with outName := val }
  else
    none

/-- Application `props[prop] && props[prop](targets, val)`: apply one property key to the
matched targets inside the model's target list (mutation of the shared
references modelled as a guarded map). -/
def applyProp (matched : CMakeTarget → Bool) (key : String) (val : Option String)
    (ts : List CMakeTarget) : List CMakeTarget :=
  match props key with
  | none => ts
  | some f => ts.map fun t => if matched t then f val t else t

/-- The pair-consumption loop of `set_target_properties`
(parse_cmake.ts lines 59–63): `prop = args[i++]; val = args[i++]`, so a
trailing lone key is applied with the absent value. -/
def applyPairs (matched : CMakeTarget → Bool) :
    List String → List CMakeTarget → List CMakeTarget
  | [], ts => ts
  | [k], ts => applyProp matched k none ts
  | k :: v :: rest, ts => applyPairs matched rest (applyProp matched k (some v) ts)

/-- The match predicate built by the name-collection loop of
`set_target_properties`: a target is matched when its name equals one of the
tokens before the `PROPERTIES` marker (`target.name === args[i]`; the
undefined name never equals a token). -/
def matchedBy (names : List String) : CMakeTarget → Bool :=
  fun t => names.any fun n => t.name = some n

/-- The `set_target_properties` handler: collect name tokens up to the
`PROPERTIES` marker (each resolving to all targets of that name), bail out
if the marker is absent, then consume the remaining tokens as property
pairs. -/
def set_target_properties (cmake : CMake) (args : List String) : CMake :=
  let names := args.takeWhile fun a => a ≠ "PROPERTIES"
  match args.dropWhile fun a => a ≠ "PROPERTIES" with
  | [] => cmake
  | _ :: pairs => { cmake with targets := applyPairs (matchedBy names) pairs cmake.targets }

/-! The `commands` table and the loader -/

/-- A scanned statement: `(name, argument tokens)`. -/
abbrev Stmt := String × List String

/-- The `add_executable` handler: push a build target and a run target named
by the first argument (the undefined value when absent), the run target's
output directory prefilled with `join(buildDir, subdir?)` and its output
name set to the first argument. -/
def add_executable (cmake : CMake) (subdir : Option String) (args : List String) : CMake :=
  { cmake with
    targets := cmake.targets ++
      [ CMakeBuildTarget args.head?,
        CMakeRunTarget args.head? (joinPath (cmake.buildDir :: subdir.toList)) args.head? ] }

/-- The `add_library` handler: push one build target. -/
def add_library (cmake : CMake) (args : List String) : CMake :=
  { cmake with targets := cmake.targets ++ [CMakeBuildTarget args.head?] }

/-- The `add_custom_target` handler: push one build target. -/
def add_custom_target (cmake : CMake) (args : List String) : CMake :=
  { cmake with targets := cmake.targets ++ [CMakeBuildTarget args.head?] }

/-- The `enable_testing` handler: push the implicit `test` build target. -/
def enable_testing (cmake : CMake) : CMake :=
  { cmake with targets := cmake.targets ++ [CMakeBuildTarget (some "test")] }

/-- The `commands` dispatch of parse_cmake.ts: run one statement's handler
(unregistered statement names are no-ops).  `recurse` is the loader entry
point used by `add_subdirectory` (`parse_cmake(join(subdir?, args[0]), cmake)`);
with an empty argument list the source's `path.join(undefined)` throws and
no model mutation happens, modelled as a no-op. -/
def runCommand (recurse : Option String → CMake → CMake) (cmake : CMake)
    (subdir : Option String) (c : Stmt) : CMake :=
  if c.1 = "add_executable" then add_executable cmake subdir c.2
  else if c.1 = "add_library" then add_library cmake c.2
  else if c.1 = "add_subdirectory" then
    match c.2.head? with
    | some a => recurse (some (joinPath (subdir.toList ++ [a]))) cmake
    | none => cmake
  else if c.1 = "add_custom_target" then add_custom_target cmake c.2
  else if c.1 = "set_target_properties" then set_target_properties cmake c.2
  else if c.1 = "enable_testing" then enable_testing cmake
  else cmake

/-- Loop `cmds.forEach(cmd => commands[cmd.cmd] && commands[cmd.cmd](...))`:
apply a statement sequence in order. -/
def runStmts (recurse : Option String → CMake → CMake) (cmake : CMake)
    (subdir : Option String) (cs : List Stmt) : CMake :=
  cs.foldl (fun cm c => runCommand recurse cm subdir c) cmake

/-- The loader's filesystem: `CMakeLists.txt` path ↦ scanned statement
sequence, `none` when the file does not exist. -/
abbrev FS := String → Option (List Stmt)

/-- Function `parse_cmake(subdir, cmake)` from parse_cmake.ts: resolve
`rootDir/subdir?/CMakeLists.txt`; if absent return the model unchanged;
otherwise record the file and apply each scanned statement in order.
Recursion into subdirectories is bounded by `fuel`. -/
def parse_cmake : Nat → FS → Option String → CMake → CMake
  | 0, _, _, cmake => cmake
  | fuel + 1, fs, subdir, cmake =>
    let path := joinPath (cmake.rootDir :: (subdir.toList ++ ["CMakeLists.txt"]))
    match fs path with
    | none => cmake
    | some cmds =>
      runStmts (fun sd m => parse_cmake fuel fs sd m)
        { cmake with files := cmake.files ++ [path] } subdir cmds


/-! Command construction: cmake.ts `generate`, `build`, `run` -/

/-- An observable effect of `generate`/`build`: a directory removal
(`rmSync`) or a command string sent to the terminal (`terminal.exec`). -/
inductive Ev where
  | rm (dir : String)
  | exec (cmd : String)
deriving DecidableEq, Repr

/-- The command strings among a trace of effects. -/
def execCmds (tr : List Ev) : List String :=
  tr.filterMap fun e => match e with
    | .exec c => some c
    | .rm _ => none

/-- The generate invocation string built by `CMake.generate`
(the `undefined` of a missing `arch_win` key prints as "undefined" in the
template literal). -/
def CMake.generateCmdStr (cmake : CMake) (config : CMakeConfig) (arch : String)
    (win : Bool) : String :=
  "cmake" ++ " -S " ++ cmake.srcDir ++ " -B " ++ cmake.buildDir
    ++ (if win then " -A " ++ (arch_win arch).getD "undefined" else "")
    ++ " -DCMAKE_BUILD_TYPE=" ++ configs config
    ++ " -DARCH=" ++ arch

/-- The build invocation string built by `CMake.build`: on win32 a defined
`target_win` alias replaces well-known logical target names. -/
def CMake.buildCmdStr (cmake : CMake) (target : String) (config : CMakeConfig)
    (win : Bool) : String :=
  "cmake" ++ " --build " ++ cmake.buildDir
    ++ " --target " ++ (if win ∧ (target_win target).isSome
                        then (target_win target).getD target else target)
    ++ " --config " ++ configs config

/-- Method `CMake.generate`: remove any stale build directory, then send the
generate invocation. -/
def CMake.generate (cmake : CMake) (config : CMakeConfig) (arch : String)
    (win : Bool) : List Ev :=
  [.rm cmake.buildDir, .exec (cmake.generateCmdStr config arch win)]

/-- Method `CMake.build`: if the build directory does not exist, first generate;
then send the build invocation.  `buildDirExists` reifies the `existsSync`
check. -/
def CMake.build (cmake : CMake) (buildDirExists : Bool) (target : String)
    (config : CMakeConfig) (arch : String) (win : Bool) : List Ev :=
  (if buildDirExists then [] else cmake.generate config arch win)
    ++ [.exec (cmake.buildCmdStr target config win)]

/-- The outcome of `CMake.run`: the 'No output file' rejection, the
TypeError thrown by `path.join` on an undefined segment (also a rejection),
a structured debug launch, or a command sent to the terminal. -/
inductive RunOutcome where
  | noOutputFile
  | typeError
  | debugLaunch (program : String) (cwd : String) (dbg : String)
  | shellExec (cmd : String)
deriving DecidableEq, Repr

/-- JavaScript falsiness of a `string | undefined` value: `undefined` or the
empty string. -/
def strFalsy (s : Option String) : Bool :=
  s = none ∨ s = some ""

/-- Leftmost, non-overlapping replacement of a pattern in a character list,
with explicit fuel (the recursion consumes at least one character per step,
so fuel equal to the list length suffices). -/
def replaceChars (pat repl : List Char) : Nat → List Char → List Char
  | 0, s => s
  | fuel + 1, s =>
    match s with
    | [] => []
    | c :: cs =>
      if pat.isPrefixOf s ∧ pat ≠ [] then
        repl ++ replaceChars pat repl fuel (s.drop pat.length)
      else
        c :: replaceChars pat repl fuel cs

/-- Model of `String.prototype.replaceAll` for the non-empty pattern the
source substitutes (the source-directory placeholder). -/
def replaceAll (s pat repl : String) : String :=
  ⟨replaceChars pat.data repl.data s.data.length s.data⟩

/-- Method `CMake.run` from cmake.ts: the guard is
`!target.outDir || !target.outName`; `target.outDir` is an array and arrays
are always truthy, so only the `outName` disjunct can fire.  Then
`join(target.outDir[config], target.outName)` throws a TypeError when
`outDir[config]` is a hole; otherwise the source-dir placeholder is
substituted and the Debug path launches a debug session while the Release
path executes the command in the terminal. -/
def CMake.run (cmake : CMake) (target : CMakeTarget) (config : CMakeConfig)
    (dbg : String) : RunOutcome :=
  if strFalsy target.outName then .noOutputFile
  else
    match target.outDir.get config, target.outName with
    | none, _ => .typeError
    | _, none => .typeError
    | some d, some n =>
      let cmd := replaceAll (joinPath [d, n]) "$\x7bCMAKE_SOURCE_DIR\x7d" cmake.srcDir
      match config with
      | .DEBUG => .debugLaunch cmd cmake.buildDir dbg
      | .RELEASE => .shellExec cmd

/-! The shell-session completion listener of terminal.ts -/

/-- The mutable state of one `exec` invocation's completion listener:
the `subshell` flag, whether `resolve()` has been called, and whether the
event subscription has been disposed. -/
structure ExecState where
  subshell : Bool
  resolved : Bool
  disposed : Bool
deriving DecidableEq, Repr

/-- The listener state right after `executeCommand`: not in a subshell,
pending, subscribed. -/
def execInit : ExecState := ⟨false, false, false⟩

/-- One `onDidEndTerminalShellExecution` event as seen by the listener:
whether `event.execution` is this invocation's execution, and the exit
code (`none` = absent). -/
structure ShellEvent where
  sameExecution : Bool
  exitCode : Option Int
deriving DecidableEq, Repr

/-- The listener body of `Terminal.exec`: a disposed listener ignores
everything; an event is handled when it is for this invocation's execution
or the `subshell` flag is set; an absent exit code sets `subshell` and keeps
listening; a present exit code clears `subshell`, resolves only when it is
exactly 0, and disposes the subscription either way. -/
def step (s : ExecState) (e : ShellEvent) : ExecState :=
  if s.disposed then s
  else if e.sameExecution || s.subshell then
    match e.exitCode with
    | none => { s with subshell := true }
    | some c =>
      { subshell := false, resolved := s.resolved || decide (c = 0), disposed := true }
  else s

/-- Deliver a sequence of shell-execution-end events to the listener. -/
def runEvents (s : ExecState) (es : List ShellEvent) : ExecState :=
  es.foldl step s


/-! Concrete build descriptions and models used by the scenario claims -/

/-- The three-statement build description of the load scenario:
`add_library(core)`, `add_executable(app)`, then
`set_target_properties(app PROPERTIES RUNTIME_OUTPUT_DIRECTORY_DEBUG out/debug
OUTPUT_NAME myapp)`. -/
def scenarioStmts : List Stmt :=
  [("add_library", ["core"]),
   ("add_executable", ["app"]),
   ("set_target_properties",
     ["app", "PROPERTIES", "RUNTIME_OUTPUT_DIRECTORY_DEBUG", "out/debug",
      "OUTPUT_NAME", "myapp"])]

/-- A filesystem holding exactly the scenario description at the project
root. -/
def scenarioFS : FS := fun p =>
  if p = "root/CMakeLists.txt" then some scenarioStmts else none

/-- The model loaded from the scenario description. -/
def scenarioModel : CMake := parse_cmake 1 scenarioFS none (CMake.new "root")

/-- A fresh model after just `add_executable(app)` (used by the
property-statement and run counterexamples). -/
def appModel : CMake :=
  runCommand (fun _ m => m) (CMake.new "root") none ("add_executable", ["app"])

/-- The run target of an executable `a` (used by the property-dispatch
witness). -/
def miniTarget : CMakeTarget := CMakeRunTarget (some "a") "d" (some "a")

/-- A one-target model holding only `miniTarget` (used by the
property-dispatch witness). -/
def miniModel : CMake :=
  { rootDir := "r", srcDir := "r", buildDir := "r/build", files := [],
    targets := [miniTarget] }

/-! General lemmas about the property handlers -/

/-- Every entry of the `props` table preserves a target's identity key. -/
theorem props_preserves_key {k : String} {f : Option String → CMakeTarget → CMakeTarget}
    (hf : props k = some f) (v : Option String) (t : CMakeTarget) :
    targetKey (f v t) = targetKey t := by
  unfold props at hf
  split_ifs at hf <;> cases hf <;> dsimp only [targetKey] <;>
    first
      | rfl
      | (split <;> rfl)

/-- Applying one property key preserves the list of identity keys. -/
theorem applyProp_map_key (matched : CMakeTarget → Bool) (k : String)
    (v : Option String) (ts : List CMakeTarget) :
    (applyProp matched k v ts).map targetKey = ts.map targetKey := by
  unfold applyProp
  cases hf : props k with
  | none => rfl
  | some f =>
    induction ts with
    | nil => rfl
    | cons t ts ih =>
      simp only [List.map_cons, ih]
      by_cases hm : matched t
      · simp [hm, props_preserves_key hf]
      · simp [hm]

/-- The pair-consumption loop preserves the list of identity keys. -/
theorem applyPairs_map_key (matched : CMakeTarget → Bool) :
    ∀ (pairs : List String) (ts : List CMakeTarget),
      (applyPairs matched pairs ts).map targetKey = ts.map targetKey
  | [], _ => rfl
  | [k], ts => applyProp_map_key matched k none ts
  | k :: v :: rest, ts => by
      rw [applyPairs, applyPairs_map_key matched rest, applyProp_map_key]

/-- A `set_target_properties` statement preserves the list of identity
keys. -/
theorem stp_map_key (cmake : CMake) (args : List String) :
    (set_target_properties cmake args).targets.map targetKey
      = cmake.targets.map targetKey := by
  unfold set_target_properties
  split
  · rfl
  · exact applyPairs_map_key _ _ _

/-- Reading one position after applying one property key: a matched target
is rewritten by the table entry for the key, everything else is unchanged. -/
theorem applyProp_get (matched : CMakeTarget → Bool) (k : String)
    (val : Option String) (ts : List CMakeTarget) (i : Nat) (t : CMakeTarget)
    (ht : ts[i]? = some t) :
    (applyProp matched k val ts)[i]?
      = some (match props k with
              | none => t
              | some f => if matched t then f val t else t) := by
  unfold applyProp
  cases props k with
  | none => simpa using ht
  | some f => simp [List.getElem?_map, ht]

/-- Computation of the name-collection loop: the tokens before the
`PROPERTIES` marker. -/
theorem takeWhile_names : ∀ (names rest : List String), "PROPERTIES" ∉ names →
    (names ++ "PROPERTIES" :: rest).takeWhile (fun a => a ≠ "PROPERTIES") = names
  | [], rest, _ => by simp
  | n :: names, rest, h => by
      have hn : n ≠ "PROPERTIES" := fun hh => h (by simp [hh])
      rw [List.cons_append, List.takeWhile_cons, if_pos (by simpa using hn),
        takeWhile_names names rest (fun hh => h (List.mem_cons_of_mem _ hh))]

/-- Computation of the marker search: the marker and the tokens after it. -/
theorem dropWhile_names : ∀ (names rest : List String), "PROPERTIES" ∉ names →
    (names ++ "PROPERTIES" :: rest).dropWhile (fun a => a ≠ "PROPERTIES")
      = "PROPERTIES" :: rest
  | [], rest, _ => by simp
  | n :: names, rest, h => by
      have hn : n ≠ "PROPERTIES" := fun hh => h (by simp [hh])
      rw [List.cons_append, List.dropWhile_cons, if_pos (by simpa using hn),
        dropWhile_names names rest (fun hh => h (List.mem_cons_of_mem _ hh))]

/-- Normal form of a `set_target_properties` statement whose argument list
contains the `PROPERTIES` marker after the name tokens. -/
theorem stp_eq (cmake : CMake) (names rest : List String)
    (h : "PROPERTIES" ∉ names) :
    set_target_properties cmake (names ++ "PROPERTIES" :: rest)
      = { cmake with targets := applyPairs (matchedBy names) rest cmake.targets } := by
  unfold set_target_properties
  rw [takeWhile_names names rest h, dropWhile_names names rest h]

/-- The pair loop consumes an even number of tokens independently of what
follows them. -/
theorem applyPairs_append (matched : CMakeTarget → Bool) :
    ∀ (pairs : List String), pairs.length % 2 = 0 →
      ∀ (tail : List String) (ts : List CMakeTarget),
        applyPairs matched (pairs ++ tail) ts
          = applyPairs matched tail (applyPairs matched pairs ts)
  | [], _, _, _ => rfl
  | [_], h, _, _ => by simp at h
  | k :: v :: rest, h, tail, ts => by
      have h' : rest.length % 2 = 0 := by
        simp only [List.length_cons] at h
        omega
      show applyPairs matched (rest ++ tail) (applyProp matched k (some v) ts) = _
      rw [applyPairs_append matched rest h' tail, applyPairs]

/-! General lemmas about the loader -/

/-- Appending targets appends their identity keys. -/
theorem map_key_append_tail (ts new : List CMakeTarget) :
    ∃ r, (ts ++ new).map targetKey = ts.map targetKey ++ r :=
  ⟨new.map targetKey, by simp⟩

/-- One statement handler only appends identity keys, provided the
subdirectory recursion it may invoke does too. -/
theorem runCommand_key_append (recurse : Option String → CMake → CMake)
    (hrec : ∀ (sd : Option String) (m : CMake), ∃ r,
      ((recurse sd m).targets.map targetKey) = m.targets.map targetKey ++ r)
    (cmake : CMake) (subdir : Option String) (c : Stmt) :
    ∃ r, (runCommand recurse cmake subdir c).targets.map targetKey
      = cmake.targets.map targetKey ++ r := by
  unfold runCommand
  split_ifs
  · exact map_key_append_tail cmake.targets _
  · exact map_key_append_tail cmake.targets _
  · cases c.2.head? with
    | some a => exact hrec _ cmake
    | none => exact ⟨[], by simp⟩
  · exact map_key_append_tail cmake.targets _
  · exact ⟨[], by rw [stp_map_key, List.append_nil]⟩
  · exact map_key_append_tail cmake.targets _
  · exact ⟨[], by simp⟩

/-- A statement sequence only appends identity keys, provided the
subdirectory recursion does too. -/
theorem runStmts_key_append (recurse : Option String → CMake → CMake)
    (hrec : ∀ (sd : Option String) (m : CMake), ∃ r,
      ((recurse sd m).targets.map targetKey) = m.targets.map targetKey ++ r) :
    ∀ (cs : List Stmt) (cmake : CMake) (subdir : Option String),
      ∃ r, (runStmts recurse cmake subdir cs).targets.map targetKey
        = cmake.targets.map targetKey ++ r
  | [], cmake, _ => ⟨[], by simp [runStmts]⟩
  | c :: cs, cmake, subdir => by
      obtain ⟨r1, h1⟩ := runCommand_key_append recurse hrec cmake subdir c
      obtain ⟨r2, h2⟩ := runStmts_key_append recurse hrec cs
        (runCommand recurse cmake subdir c) subdir
      refine ⟨r1 ++ r2, ?_⟩
      show (runStmts recurse (runCommand recurse cmake subdir c) subdir cs).targets.map
        targetKey = _
      rw [h2, h1, List.append_assoc]

/-- The loader only appends identity keys to the model it is given. -/
theorem parse_key_append : ∀ (fuel : Nat) (fs : FS) (subdir : Option String)
    (cmake : CMake), ∃ r, (parse_cmake fuel fs subdir cmake).targets.map targetKey
      = cmake.targets.map targetKey ++ r
  | 0, _, _, cmake => ⟨[], by simp [parse_cmake]⟩
  | fuel + 1, fs, subdir, cmake => by
      unfold parse_cmake
      dsimp only
      split
      · exact ⟨[], by simp⟩
      · exact runStmts_key_append _ (fun sd m => parse_key_append fuel fs sd m) _ _ _

/-! General lemmas about the completion listener -/

/-- Delivering a concatenation of event lists is delivery in sequence. -/
theorem runEvents_append (s : ExecState) (l1 l2 : List ShellEvent) :
    runEvents s (l1 ++ l2) = runEvents (runEvents s l1) l2 := by
  simp [runEvents, List.foldl_append]

/-- An event for a different execution is ignored by a fresh listener. -/
theorem step_ignored (e : ShellEvent) (he : e.sameExecution = false) :
    step execInit e = execInit := by
  simp [step, execInit, he]

/-- A fresh listener ignores any sequence of other-execution events. -/
theorem runEvents_ignored : ∀ (pre : List ShellEvent),
    (∀ e ∈ pre, e.sameExecution = false) → runEvents execInit pre = execInit
  | [], _ => rfl
  | e :: pre, h => by
      show runEvents (step execInit e) pre = execInit
      rw [step_ignored e (h e (by simp))]
      exact runEvents_ignored pre (fun e' he' => h e' (by simp [he']))

/-- A disposed listener ignores a single event. -/
theorem step_disposed (s : ExecState) (e : ShellEvent) (h : s.disposed = true) :
    step s e = s := by
  simp [step, h]

/-- A disposed listener ignores every further event. -/
theorem runEvents_disposed : ∀ (es : List ShellEvent) (s : ExecState),
    s.disposed = true → runEvents s es = s
  | [], _, _ => rfl
  | e :: es, s, h => by
      show runEvents (step s e) es = s
      rw [step_disposed s e h]
      exact runEvents_disposed es s h

/-! Claim theorems -/

/-- C1: loading the description `add_library(core)`, `add_executable(app)`,
`set_target_properties(app PROPERTIES RUNTIME_OUTPUT_DIRECTORY_DEBUG
out/debug OUTPUT_NAME myapp)` produces a model whose targets are exactly,
in order: BuildTarget `all`, BuildTarget `clean`, BuildTarget `core`,
BuildTarget `app`, RunTarget `app`; and the run target has
`outputDir[Debug] = "out/debug"` and `outputName = "myapp"`. -/
theorem load_scenario_targets :
    scenarioModel.targets.map targetKey
      = [(some "all", .BUILD), (some "clean", .BUILD), (some "core", .BUILD),
         (some "app", .BUILD), (some "app", .RUN)]
    ∧ (scenarioModel.targets[4]?).map (fun t => (t.outDir.get .DEBUG, t.outName))
      = some (some "out/debug", some "myapp") := by
  constructor
  · decide
  · decide

/-- C7: `build(target, config, arch)` with no build directory present sends
exactly one generate command followed by exactly one build command, in that
order; with the build directory present it sends only the build command. -/
theorem build_lazy_bootstrap (cmake : CMake) (target : String)
    (config : CMakeConfig) (arch : String) (win : Bool) :
    execCmds (cmake.build false target config arch win)
      = [cmake.generateCmdStr config arch win, cmake.buildCmdStr target config win]
    ∧ execCmds (cmake.build true target config arch win)
      = [cmake.buildCmdStr target config win] :=
  ⟨rfl, rfl⟩

/-- C8: every model reachable by constructing a fresh model and applying any
sequence of loader statement handlers contains at least the two implicit
BuildTargets named `all` and `clean`. -/
theorem targets_contain_all_clean (fuel : Nat) (fs : FS) (rootDir : String)
    (subdir : Option String) (cs : List Stmt) :
    (∃ t ∈ (runStmts (parse_cmake fuel fs) (CMake.new rootDir) subdir cs).targets,
        t.name = some "all" ∧ t.type = .BUILD)
    ∧ (∃ t ∈ (runStmts (parse_cmake fuel fs) (CMake.new rootDir) subdir cs).targets,
        t.name = some "clean" ∧ t.type = .BUILD) := by
  obtain ⟨r, hr⟩ := runStmts_key_append (parse_cmake fuel fs)
    (fun sd m => parse_key_append fuel fs sd m) cs (CMake.new rootDir) subdir
  constructor
  · have hmem : (some "all", CMakeTargetType.BUILD)
        ∈ (runStmts (parse_cmake fuel fs) (CMake.new rootDir) subdir cs).targets.map
          targetKey := by
      rw [hr]
      exact List.mem_append_left _ (by simp [CMake.new, CMakeBuildTarget, targetKey])
    obtain ⟨t, htm, htk⟩ := List.mem_map.mp hmem
    exact ⟨t, htm, congrArg Prod.fst htk, congrArg Prod.snd htk⟩
  · have hmem : (some "clean", CMakeTargetType.BUILD)
        ∈ (runStmts (parse_cmake fuel fs) (CMake.new rootDir) subdir cs).targets.map
          targetKey := by
      rw [hr]
      exact List.mem_append_left _ (by simp [CMake.new, CMakeBuildTarget, targetKey])
    obtain ⟨t, htm, htk⟩ := List.mem_map.mp hmem
    exact ⟨t, htm, congrArg Prod.fst htk, congrArg Prod.snd htk⟩

/-- C9: every registered statement handler either appends new targets at the
end of the model's target list or mutates output fields of already-present
targets: the identity keys of the targets present before the statement
remain an unchanged-order prefix of the resulting key list. -/
theorem handlers_append_by_key (fuel : Nat) (fs : FS) (cmake : CMake)
    (subdir : Option String) (c : Stmt) :
    ∃ rest, (runCommand (parse_cmake fuel fs) cmake subdir c).targets.map targetKey
      = cmake.targets.map targetKey ++ rest :=
  runCommand_key_append (parse_cmake fuel fs)
    (fun sd m => parse_key_append fuel fs sd m) cmake subdir c

/-- C10: a declare-executable, declare-library, or declare-custom-target
statement with an empty argument list still appends its target(s), with the
absent value as their name (and, for the run target, as its output name),
rather than being skipped as unrecognized. -/
theorem empty_args_append_undefined (recurse : Option String → CMake → CMake)
    (cmake : CMake) (subdir : Option String) :
    runCommand recurse cmake subdir ("add_executable", [])
      = { cmake with targets := cmake.targets ++
          [CMakeBuildTarget none,
           CMakeRunTarget none (joinPath (cmake.buildDir :: subdir.toList)) none] }
    ∧ runCommand recurse cmake subdir ("add_library", [])
      = { cmake with targets := cmake.targets ++ [CMakeBuildTarget none] }
    ∧ runCommand recurse cmake subdir ("add_custom_target", [])
      = { cmake with targets := cmake.targets ++ [CMakeBuildTarget none] } :=
  ⟨rfl, rfl, rfl⟩

/-- C2: for an exec invocation, a completion signal for that invocation
carrying exit code exactly 0 resolves the pending promise; a completion
signal carrying any non-zero exit code never resolves it, whatever arrives
afterwards (the listener is disposed without resolving). -/
theorem exec_exit_code_resolution (pre post : List ShellEvent) (c : Int)
    (hpre : ∀ e ∈ pre, e.sameExecution = false) :
    (runEvents execInit (pre ++ ⟨true, some 0⟩ :: post)).resolved = true
    ∧ (c ≠ 0 → (runEvents execInit (pre ++ ⟨true, some c⟩ :: post)).resolved = false) := by
  constructor
  · rw [show pre ++ (⟨true, some 0⟩ : ShellEvent) :: post
        = (pre ++ [⟨true, some 0⟩]) ++ post from by simp,
      runEvents_append, runEvents_append, runEvents_ignored pre hpre]
    rw [show runEvents execInit [⟨true, some 0⟩] = ⟨false, true, true⟩ from rfl,
      runEvents_disposed post _ rfl]
  · intro hc
    rw [show pre ++ (⟨true, some c⟩ : ShellEvent) :: post
        = (pre ++ [⟨true, some c⟩]) ++ post from by simp,
      runEvents_append, runEvents_append, runEvents_ignored pre hpre]
    rw [show runEvents execInit [⟨true, some c⟩]
        = ⟨false, decide (c = 0), true⟩ from rfl,
      runEvents_disposed post _ rfl]
    simpa using hc

/-- Witness for C2 at a concrete event trace: one foreign event, then the
completion with code 0 (resp. 1), then a stray trailing event. -/
theorem exec_exit_code_resolution_witness :
    (∀ e ∈ ([⟨false, none⟩] : List ShellEvent), e.sameExecution = false)
    ∧ ((runEvents execInit
          ([⟨false, none⟩] ++ ⟨true, some 0⟩ :: [⟨true, some 1⟩])).resolved = true
      ∧ ((1 : Int) ≠ 0 →
          (runEvents execInit
            ([⟨false, none⟩] ++ ⟨true, some 1⟩ :: [⟨true, some 1⟩])).resolved = false)) :=
  ⟨by decide, exec_exit_code_resolution [⟨false, none⟩] [⟨true, some 1⟩] 1 (by decide)⟩

/-- C3: a completion signal with an absent exit code leaves the listener
undisposed and unresolved with the subshell flag set (the session keeps
listening on the same invocation handle), and the next signal for the same
handle is interpreted exactly as from the initial listening state: absent
exit code means nested again, exit code 0 means success. -/
theorem exec_subshell_protocol (s : ExecState) (e : ShellEvent)
    (hd : s.disposed = false) (hr : s.resolved = false)
    (he : e.sameExecution = true) :
    ((step s ⟨true, none⟩).disposed = false
      ∧ (step s ⟨true, none⟩).resolved = false
      ∧ (step s ⟨true, none⟩).subshell = true)
    ∧ step (step s ⟨true, none⟩) e = step execInit e := by
  obtain ⟨sb, rv, dp⟩ := s
  cases hd
  cases hr
  constructor
  · exact ⟨rfl, rfl, rfl⟩
  · obtain ⟨se, ec⟩ := e
    cases he
    cases ec <;> rfl

/-- Witness for C3 at a concrete state and event: a pending subshell-flagged
listener receiving the nested completion and then a 0-exit completion. -/
theorem exec_subshell_protocol_witness :
    ((⟨true, false, false⟩ : ExecState).disposed = false
      ∧ (⟨true, false, false⟩ : ExecState).resolved = false
      ∧ (⟨true, (some 0 : Option Int)⟩ : ShellEvent).sameExecution = true)
    ∧ (((step ⟨true, false, false⟩ ⟨true, none⟩).disposed = false
        ∧ (step ⟨true, false, false⟩ ⟨true, none⟩).resolved = false
        ∧ (step ⟨true, false, false⟩ ⟨true, none⟩).subshell = true)
      ∧ step (step ⟨true, false, false⟩ ⟨true, none⟩) ⟨true, some 0⟩
          = step execInit ⟨true, some 0⟩) :=
  ⟨⟨rfl, rfl, rfl⟩,
    exec_subshell_protocol ⟨true, false, false⟩ ⟨true, some 0⟩ rfl rfl rfl⟩

/-- Counterexample for C4: the run target created by `add_executable(app)`
has its `outputDir[Release]` prefilled with the build directory at
construction, so running it in Release proceeds to execute the command
instead of failing with the 'no output file' rejection; and a run target
whose `outputDir[Release]` really is absent (with an output name present)
is rejected with a TypeError from the path join, not with 'no output
file'. -/
theorem run_missing_artifact_cx :
    appModel.targets[3]? = some (CMakeRunTarget (some "app") "root/build" (some "app"))
    ∧ appModel.run (CMakeRunTarget (some "app") "root/build" (some "app"))
        .RELEASE "gdb" = .shellExec "root/build/app"
    ∧ RunOutcome.shellExec "root/build/app" ≠ RunOutcome.noOutputFile
    ∧ appModel.run
        { CMakeRunTarget (some "app") "root/build" (some "app") with
          outDir := ⟨some "root/build", none⟩ } .RELEASE "gdb" = .typeError :=
  ⟨by decide, by decide, by decide, by decide⟩

/-- C4 amended: `run` is rejected with the 'no output file' message exactly
when the target's output name is absent (or empty, the other falsy string);
the guard's output-directory disjunct is vacuous because the directory array
is always truthy, so an absent `outputDir[config]` with a present output
name is rejected with a TypeError from the path join instead; and a
RunTarget constructed by the loader has `outputDir[config]` prefilled for
every configuration, so a never-configured `outputDir[Release]` does not
make `run` fail. -/
theorem run_missing_artifact (cmake : CMake) (t : CMakeTarget)
    (config : CMakeConfig) (dbg : String) (nm onm : Option String) (od : String) :
    (cmake.run t config dbg = .noOutputFile ↔ strFalsy t.outName = true)
    ∧ (cmake.run t config dbg = .typeError
        ↔ (strFalsy t.outName = false ∧ t.outDir.get config = none))
    ∧ (CMakeRunTarget nm od onm).outDir.get config = some od := by
  by_cases hf : strFalsy t.outName
  · refine ⟨?_, ?_, ?_⟩
    · simp [CMake.run, hf]
    · simp [CMake.run, hf]
    · cases config <;> rfl
  · obtain ⟨n, hn⟩ : ∃ n, t.outName = some n := by
      cases h : t.outName with
      | none => exact absurd (by simp [strFalsy, h]) hf
      | some n => exact ⟨n, rfl⟩
    cases hd : t.outDir.get config with
    | none =>
      refine ⟨?_, ?_, ?_⟩
      · simp [CMake.run, hf, hn, hd]
      · simp [CMake.run, hf, hn, hd]
      · cases config <;> rfl
    | some d =>
      have hfn : strFalsy (some n) = false := by
        rw [hn] at hf
        simpa using hf
      refine ⟨?_, ?_, ?_⟩
      · cases config <;> simp [CMake.run, hf, hn, hd, hfn]
      · cases config <;> simp [CMake.run, hf, hn, hd, hfn]
      · cases config <;> rfl

/-- Counterexample for C5: in the statement
`set_target_properties(app PROPERTIES OUTPUT_NAME)` the token sequence
after the marker has odd length and no complete pair, yet processing it
changes the app run target's output name (from `some "app"` to the absent
value) instead of leaving all targets as they were. -/
theorem stp_trailing_key_cx :
    (set_target_properties appModel ["app", "PROPERTIES", "OUTPUT_NAME"]).targets.map
        (fun t => t.outName)
      ≠ appModel.targets.map (fun t => t.outName)
    ∧ appModel.targets.map (fun t => t.outName) = [none, none, none, some "app"]
    ∧ (set_target_properties appModel ["app", "PROPERTIES", "OUTPUT_NAME"]).targets.map
        (fun t => t.outName) = [none, none, none, none] :=
  ⟨by decide, by decide, by decide⟩

/-- C5 amended: after the marker, tokens are consumed in (key, value)
pairs, and a trailing unmatched key is processed as a pair whose value is
the absent value: the statement is equivalent to processing the complete
pairs and then applying the trailing key with an absent value (which, for a
recognized key, clears the corresponding field on the matched targets of
the relevant variant; an unrecognized trailing key is ignored). -/
theorem stp_trailing_key (cmake : CMake) (names pairs : List String) (k : String)
    (h : "PROPERTIES" ∉ names) (hev : pairs.length % 2 = 0) :
    set_target_properties cmake (names ++ "PROPERTIES" :: (pairs ++ [k]))
      = { set_target_properties cmake (names ++ "PROPERTIES" :: pairs) with
          targets := applyProp (matchedBy names) k none
            (set_target_properties cmake (names ++ "PROPERTIES" :: pairs)).targets } := by
  rw [stp_eq cmake names (pairs ++ [k]) h, stp_eq cmake names pairs h,
    applyPairs_append (matchedBy names) pairs hev [k]]
  rfl

/-- Witness for C5's amended claim at the concrete statement
`set_target_properties(app PROPERTIES OUTPUT_NAME)` against the
`add_executable(app)` model. -/
theorem stp_trailing_key_witness :
    ("PROPERTIES" ∉ (["app"] : List String))
    ∧ (([] : List String).length % 2 = 0)
    ∧ set_target_properties appModel (["app"] ++ "PROPERTIES" :: ([] ++ ["OUTPUT_NAME"]))
      = { set_target_properties appModel (["app"] ++ "PROPERTIES" :: []) with
          targets := applyProp (matchedBy ["app"]) "OUTPUT_NAME" none
            (set_target_properties appModel (["app"] ++ "PROPERTIES" :: [])).targets } :=
  ⟨by decide, rfl, stp_trailing_key appModel ["app"] [] "OUTPUT_NAME" (by decide) rfl⟩

/-- C6: in a set-target-properties statement with one (key, value) pair,
an `OUTPUT_NAME` pair sets the output name of every matched target
regardless of variant; a `RUNTIME_OUTPUT_DIRECTORY_DEBUG`/`RELEASE` pair
sets the output directory only on matched RunTargets, leaving matched
BuildTargets unchanged; a `LIBRARY_OUTPUT_DIRECTORY_DEBUG`/`RELEASE` pair
sets it only on matched BuildTargets, leaving matched RunTargets unchanged;
unmatched targets are always unchanged. -/
theorem stp_variant_dispatch (cmake : CMake) (names : List String) (v : String)
    (i : Nat) (t : CMakeTarget) (hn : "PROPERTIES" ∉ names)
    (ht : cmake.targets[i]? = some t) :
    (matchedBy names t = true →
      ((set_target_properties cmake
          (names ++ ["PROPERTIES", "OUTPUT_NAME", v])).targets[i]?
        = some { t with outName := some v })
      ∧ (t.type = .RUN →
          ((set_target_properties cmake
              (names ++ ["PROPERTIES", "RUNTIME_OUTPUT_DIRECTORY_DEBUG", v])).targets[i]?
            = some { t with outDir := t.outDir.set .DEBUG (some v) })
          ∧ ((set_target_properties cmake
              (names ++ ["PROPERTIES", "RUNTIME_OUTPUT_DIRECTORY_RELEASE", v])).targets[i]?
            = some { t with outDir := t.outDir.set .RELEASE (some v) })
          ∧ ((set_target_properties cmake
              (names ++ ["PROPERTIES", "LIBRARY_OUTPUT_DIRECTORY_DEBUG", v])).targets[i]?
            = some t)
          ∧ ((set_target_properties cmake
              (names ++ ["PROPERTIES", "LIBRARY_OUTPUT_DIRECTORY_RELEASE", v])).targets[i]?
            = some t))
      ∧ (t.type = .BUILD →
          ((set_target_properties cmake
              (names ++ ["PROPERTIES", "LIBRARY_OUTPUT_DIRECTORY_DEBUG", v])).targets[i]?
            = some { t with outDir := t.outDir.set .DEBUG (some v) })
          ∧ ((set_target_properties cmake
              (names ++ ["PROPERTIES", "LIBRARY_OUTPUT_DIRECTORY_RELEASE", v])).targets[i]?
            = some { t with outDir := t.outDir.set .RELEASE (some v) })
          ∧ ((set_target_properties cmake
              (names ++ ["PROPERTIES", "RUNTIME_OUTPUT_DIRECTORY_DEBUG", v])).targets[i]?
            = some t)
          ∧ ((set_target_properties cmake
              (names ++ ["PROPERTIES", "RUNTIME_OUTPUT_DIRECTORY_RELEASE", v])).targets[i]?
            = some t)))
    ∧ (matchedBy names t = false →
        ∀ k, (set_target_properties cmake (names ++ ["PROPERTIES", k, v])).targets[i]?
          = some t) := by
  have base : ∀ k, (set_target_properties cmake (names ++ ["PROPERTIES", k, v])).targets
      = applyProp (matchedBy names) k (some v) cmake.targets := fun k => by
    rw [show names ++ ["PROPERTIES", k, v] = names ++ "PROPERTIES" :: [k, v] from rfl,
      stp_eq cmake names [k, v] hn]
    rfl
  constructor
  · intro hm
    refine ⟨?_, ?_, ?_⟩
    · rw [base, applyProp_get _ _ _ _ _ _ ht]
      simp [props, hm]
    · intro hty
      refine ⟨?_, ?_, ?_, ?_⟩ <;>
        (rw [base, applyProp_get _ _ _ _ _ _ ht]; simp [props, hm, hty])
    · intro hty
      refine ⟨?_, ?_, ?_, ?_⟩ <;>
        (rw [base, applyProp_get _ _ _ _ _ _ ht]; simp [props, hm, hty])
  · intro hm k
    rw [base, applyProp_get _ _ _ _ _ _ ht]
    cases props k <;> simp [hm]

/-- Witness for C6 at a concrete model: the one-target model with the run
target `a`, matched by name, receiving the value `x`. -/
theorem stp_variant_dispatch_witness :
    ("PROPERTIES" ∉ (["a"] : List String))
    ∧ miniModel.targets[0]? = some miniTarget
    ∧ ((matchedBy ["a"] miniTarget = true →
        ((set_target_properties miniModel
            (["a"] ++ ["PROPERTIES", "OUTPUT_NAME", "x"])).targets[0]?
          = some { miniTarget with outName := some "x" })
        ∧ (miniTarget.type = .RUN →
            ((set_target_properties miniModel
                (["a"] ++ ["PROPERTIES", "RUNTIME_OUTPUT_DIRECTORY_DEBUG", "x"])).targets[0]?
              = some { miniTarget with outDir := miniTarget.outDir.set .DEBUG (some "x") })
            ∧ ((set_target_properties miniModel
                (["a"] ++ ["PROPERTIES", "RUNTIME_OUTPUT_DIRECTORY_RELEASE", "x"])).targets[0]?
              = some { miniTarget with outDir := miniTarget.outDir.set .RELEASE (some "x") })
            ∧ ((set_target_properties miniModel
                (["a"] ++ ["PROPERTIES", "LIBRARY_OUTPUT_DIRECTORY_DEBUG", "x"])).targets[0]?
              = some miniTarget)
            ∧ ((set_target_properties miniModel
                (["a"] ++ ["PROPERTIES", "LIBRARY_OUTPUT_DIRECTORY_RELEASE", "x"])).targets[0]?
              = some miniTarget))
        ∧ (miniTarget.type = .BUILD →
            ((set_target_properties miniModel
                (["a"] ++ ["PROPERTIES", "LIBRARY_OUTPUT_DIRECTORY_DEBUG", "x"])).targets[0]?
              = some { miniTarget with outDir := miniTarget.outDir.set .DEBUG (some "x") })
            ∧ ((set_target_properties miniModel
                (["a"] ++ ["PROPERTIES", "LIBRARY_OUTPUT_DIRECTORY_RELEASE", "x"])).targets[0]?
              = some { miniTarget with outDir := miniTarget.outDir.set .RELEASE (some "x") })
            ∧ ((set_target_properties miniModel
                (["a"] ++ ["PROPERTIES", "RUNTIME_OUTPUT_DIRECTORY_DEBUG", "x"])).targets[0]?
              = some miniTarget)
            ∧ ((set_target_properties miniModel
                (["a"] ++ ["PROPERTIES", "RUNTIME_OUTPUT_DIRECTORY_RELEASE", "x"])).targets[0]?
              = some miniTarget)))
      ∧ (matchedBy ["a"] miniTarget = false →
          ∀ k, (set_target_properties miniModel
            (["a"] ++ ["PROPERTIES", k, "x"])).targets[0]? = some miniTarget)) :=
  ⟨by decide, rfl,
    stp_variant_dispatch miniModel ["a"] "x" 0 miniTarget (by decide) rfl⟩

end VSCMake
